import Mathlib

/-!
# Verification of the image-collection and dispatch logic of sunset.py

This file gives a shallow embedding of the program in sunset.py:
the action `collect_images` (source lines 76-119), the module-creation
helper `init` (lines 18-26) as called by `run_commands` (line 32) and
`show_time` (line 49), and the top-level dispatch of `main`
(lines 162-166).

Modelling conventions for the POSIX environment the script runs in:

* A filesystem `FS` is a list of directories and a list of file entries.
  Each entry records the directory it lives in, its name, and a
  `FileData` consisting of a modification time (the value reported by
  os.path.getmtime), a symlink flag, and a content string (for a regular
  file its bytes, for a symbolic link the link-target path string).
* `FS.clock` is the current wall-clock time stamped onto newly created
  files.
* `FS.failPaths` lists (directory, name) targets at which a write
  (os.symlink or shutil.copyfile) fails with an OSError - this models
  environmental failures such as permissions or a full disk, which the
  spec requires to propagate.
* glob.glob with a pattern whose last component is "*" or "*suffix"
  returns the entries of the scanned directory whose name matches;
  following Python glob semantics, names beginning with a dot are
  treated as hidden and are never matched by the "*" wildcard.
* os.symlink raises FileExistsError if the link name already exists;
  shutil.copyfile overwrites an existing destination and reads the
  source through symbolic links (resolution bounded by the kernel's
  40-link limit).
* Python str.lower is modelled for ASCII data by mapping Char.toLower.
-/

namespace Sunset

/-- Python-style suffix test on strings (str.endswith). -/
def pyEndsWith (s suffix : String) : Bool :=
  List.isSuffixOf suffix.data s.data

/-- Python-style test that a string starts with the given string. -/
def pyStartsWith (s p : String) : Bool :=
  List.isPrefixOf p.data s.data

/-- os.path.isabs on POSIX: the path starts with a slash. -/
def pyIsAbs (p : String) : Bool := pyStartsWith p "/"

/-- A name glob treats as hidden: it begins with a dot. -/
def isHidden (n : String) : Bool := pyStartsWith n "."

/-- Python str.lower restricted to ASCII data. -/
def pyLower (s : String) : String := String.mk (s.data.map Char.toLower)

/-- os.path.join for two components on POSIX. -/
def osPathJoin (a b : String) : String :=
  if pyIsAbs b = true then b
  else if a = "" then b
  else if pyEndsWith a "/" = true then a ++ b
  else a ++ "/" ++ b

/-- The "{:+d}" format of Python: render an integer with an explicit sign. -/
def fmtSigned (n : Int) : String :=
  if n < 0 then toString n else "+" ++ toString n

/-- Data of one filesystem entry: modification time as reported by
os.path.getmtime, whether the entry is a symbolic link, and its content
(bytes of a regular file, or the link-target path of a symlink). -/
structure FileData where
  mtime : Nat
  isSymlink : Bool
  content : String
deriving DecidableEq

/-- One filesystem entry: the directory it lives in, its name within that
directory, and its data. -/
structure Entry where
  dir : String
  name : String
  data : FileData
deriving DecidableEq

/-- The modelled filesystem state. -/
structure FS where
  dirs : List String
  entries : List Entry
  failPaths : List (String × String)
  clock : Nat
deriving DecidableEq

/-- os.path.isdir. -/
def FS.isdir (fs : FS) (d : String) : Bool := fs.dirs.contains d

/-- os.makedirs. -/
def FS.makedirs (fs : FS) (d : String) : FS := { fs with dirs := d :: fs.dirs }

/-- glob.glob with pattern dir/"*": the non-hidden entries directly under
the directory. -/
def FS.globStar (fs : FS) (d : String) : List Entry :=
  fs.entries.filter (fun e => e.dir == d && !(isHidden e.name))

/-- glob.glob with pattern dir/"*suffix": the non-hidden entries directly
under the directory whose name ends with the suffix. -/
def FS.globSuffix (fs : FS) (d suffix : String) : List Entry :=
  fs.entries.filter
    (fun e => e.dir == d && !(isHidden e.name) && pyEndsWith e.name suffix)

/-- os.remove of the entry (d, n). -/
def FS.removeEntry (fs : FS) (d n : String) : FS :=
  { fs with entries := fs.entries.filter (fun e => !(e.dir == d && e.name == n)) }

/-- The deletion loop of the purge: os.remove on every globbed file. -/
def FS.removeEntries (fs : FS) (es : List Entry) : FS :=
  es.foldl (fun f e => f.removeEntry e.dir e.name) fs

/-- os.path.exists for a file entry. -/
def FS.hasEntry (fs : FS) (d n : String) : Bool :=
  fs.entries.any (fun e => e.dir == d && e.name == n)

/-- Creation of a new entry. -/
def FS.addEntry (fs : FS) (e : Entry) : FS :=
  { fs with entries := e :: fs.entries }

/-- Lookup of an entry's data by directory and name. -/
def FS.getEntry (fs : FS) (d n : String) : Option FileData :=
  (fs.entries.find? (fun e => e.dir == d && e.name == n)).map (fun e => e.data)

/-- Split a path at its last slash into directory and base name
(os.path.split for the paths this program builds). -/
def splitPathAux : List Char → Option (List Char × List Char)
  | [] => none
  | c :: cs =>
    match splitPathAux cs with
    | some (d, b) => some (c :: d, b)
    | none => if c = '/' then some ([], cs) else none

/-- Split a path string into (directory, base name). -/
def splitPath (p : String) : String × String :=
  match splitPathAux p.data with
  | some (d, b) => (String.mk d, String.mk b)
  | none => ("", p)

/-- Reading the bytes of a file, following symbolic links with the
kernel's bound on the length of a resolution chain; none models the
OSError raised on a missing file or a broken or cyclic link. -/
def FS.readBytes (fs : FS) : Nat → String → String → Option String
  | 0, _, _ => none
  | fuel + 1, d, n =>
    match fs.getEntry d n with
    | none => none
    | some f =>
      if f.isSymlink = true then
        fs.readBytes fuel (splitPath f.content).1 (splitPath f.content).2
      else some f.content

/-- Stable insertion of an entry into a list ascending by mtime
(an earlier element with an equal key stays in front). -/
def insertByMtime (x : Entry) : List Entry → List Entry
  | [] => [x]
  | y :: ys =>
    if x.data.mtime ≤ y.data.mtime then x :: y :: ys
    else y :: insertByMtime x ys

/-- sorted(files, key=os.path.getmtime): a stable sort ascending by
modification time. -/
def sortByMtime (l : List Entry) : List Entry := l.foldr insertByMtime []

/-- The arguments of the collect-images action as parsed by main
(source lines 143-154). -/
structure CollectArgs where
  offset : Int
  target : String
  subdir : String
  purge : Bool
  silent : Bool
  copy : Bool
deriving DecidableEq

/-- How a run of collect_images ends: an early return with a printed
report (missing source directory, user cancellation), a normal
completion with the number of files processed, or a Python exception
propagating out of the function. -/
inductive CollectOutcome where
  | sourceMissing
  | cancelled
  | done (count : Nat)
  | raised (msg : String)
deriving DecidableEq

/-- Whether the outcome is a propagating exception. -/
def CollectOutcome.isRaised : CollectOutcome → Bool
  | .raised _ => true
  | _ => false

/-- Result of the purge block (source lines 87-100): the filesystem
afterwards, whether the user cancelled, what was printed, and the
entries deleted. -/
structure PurgeResult where
  fs : FS
  cancelled : Bool
  prints : List String
  purged : List Entry
deriving DecidableEq

/-- The two prompt lines printed before asking for confirmation
(source lines 93-95). -/
def purgePrompts (targetDir : String) : List String :=
  ["All files in target directory " ++ targetDir ++ " will be deleted.",
   "Do you want to continue? (y/n)"]

/-- The purge block of collect_images (source lines 87-100): when purging
and the target directory globs non-empty, either ask for confirmation
(unless silent) and cancel when the lowercased answer is not "y", or
delete every globbed entry. -/
def purgePhase (fs : FS) (targetDir : String) (purge silent : Bool)
    (answer : String) : PurgeResult :=
  if purge = true then
    if (fs.globStar targetDir).length > 0 then
      if silent = false then
        if pyLower answer = "y" then
          ⟨fs.removeEntries (fs.globStar targetDir), false,
            purgePrompts targetDir, fs.globStar targetDir⟩
        else
          ⟨fs, true, purgePrompts targetDir ++ ["Operation cancelled."], []⟩
      else
        ⟨fs.removeEntries (fs.globStar targetDir), false, [],
          fs.globStar targetDir⟩
    else ⟨fs, false, [], []⟩
  else ⟨fs, false, [], []⟩

/-- Result of the link/copy loop (source lines 106-110): the filesystem
afterwards, the exception message if one was raised, the printed target
paths, and the entries created, in order. -/
structure WriteResult where
  fs : FS
  err : Option String
  prints : List String
  written : List Entry
deriving DecidableEq

/-- The link/copy loop of collect_images (source lines 105-110): for each
file, in order, print the target path and perform os.symlink (default)
or shutil.copyfile (copy mode); a failing operation raises and aborts
the loop, keeping the effects performed so far. -/
def writeFiles (copyMode : Bool) (targetDir : String) :
    FS → List Entry → Nat → WriteResult
  | fs, [], _ => ⟨fs, none, [], []⟩
  | fs, f :: rest, i =>
    let tname := toString i ++ ".jpg"
    let tpath := osPathJoin targetDir tname
    if fs.failPaths.contains (targetDir, tname) = true then
      ⟨fs, some "FilesystemError", [tpath], []⟩
    else if copyMode = true then
      match fs.readBytes 40 f.dir f.name with
      | none => ⟨fs, some "FileNotFoundError", [tpath], []⟩
      | some bytes =>
        let e : Entry := ⟨targetDir, tname, ⟨fs.clock, false, bytes⟩⟩
        let r := writeFiles copyMode targetDir
          ((fs.removeEntry targetDir tname).addEntry e) rest (i + 1)
        ⟨r.fs, r.err, tpath :: r.prints, e :: r.written⟩
    else
      if fs.hasEntry targetDir tname = true then
        ⟨fs, some "FileExistsError", [tpath], []⟩
      else
        let e : Entry := ⟨targetDir, tname, ⟨fs.clock, true, osPathJoin f.dir f.name⟩⟩
        let r := writeFiles copyMode targetDir (fs.addEntry e) rest (i + 1)
        ⟨r.fs, r.err, tpath :: r.prints, e :: r.written⟩

/-- Line 83 of the source: a relative target is joined onto the source
directory, an absolute target is used unchanged. -/
def targetDirOf (src : String) (a : CollectArgs) : String :=
  if pyIsAbs a.target = true then a.target else osPathJoin src a.target

/-- Lines 85-86 of the source: create the target directory if absent. -/
def preFS (fs : FS) (src : String) (a : CollectArgs) : FS :=
  if fs.isdir (targetDirOf src a) = true then fs
  else fs.makedirs (targetDirOf src a)

/-- The purge block as run by collect_images, after target-directory
creation. -/
def purgeOf (fs : FS) (src : String) (a : CollectArgs) (ans : String) :
    PurgeResult :=
  purgePhase (preFS fs src a) (targetDirOf src a) a.purge a.silent ans

/-- The directory scanned by the glob of line 102: the join of the source
directory and the subdirectory argument (the dirname of the pattern
os.path.join(source_dir, subdir, "*{:+d}.jpg")). -/
def scanDir (source subdir : String) : String :=
  if subdir = "" then source else osPathJoin source subdir

/-- The files matched by the glob of line 102: non-hidden entries of the
scanned directory whose name ends with the offset rendered with an
explicit sign followed by ".jpg". -/
def matchedOf (fs : FS) (src : String) (a : CollectArgs) (ans : String) :
    List Entry :=
  (purgeOf fs src a ans).fs.globSuffix (scanDir src a.subdir)
    (fmtSigned a.offset ++ ".jpg")

/-- The link/copy loop as run by collect_images, over the matched files
sorted by modification time. -/
def writeOf (fs : FS) (src : String) (a : CollectArgs) (ans : String) :
    WriteResult :=
  writeFiles a.copy (targetDirOf src a) (purgeOf fs src a ans).fs
    (sortByMtime (matchedOf fs src a ans)) 0

/-- The success line printed at lines 111-114. -/
def successMsg (a : CollectArgs) (count : Nat) (tgt : String) : String :=
  if a.copy = true then
    "Successfully copied " ++ toString count ++ " files to " ++ tgt ++ "."
  else
    "Successfully created " ++ toString count ++ " symlinks to " ++ tgt ++ "."

/-- The result of one run of collect_images: the filesystem afterwards,
the outcome, everything printed, the entries deleted by the purge, the
files matched by the glob, the entries created by the link/copy loop,
and the effective target directory. -/
structure CollectResult where
  fs : FS
  outcome : CollectOutcome
  prints : List String
  purged : List Entry
  matched : List Entry
  written : List Entry
  targetDir : String
deriving DecidableEq

/-- The collect-images action (source lines 76-119). -/
def collect_images (fs : FS) (src : String) (a : CollectArgs)
    (ans : String) : CollectResult :=
  if fs.isdir src = true then
    if (purgeOf fs src a ans).cancelled = true then
      ⟨(purgeOf fs src a ans).fs, .cancelled, (purgeOf fs src a ans).prints,
        [], [], [], targetDirOf src a⟩
    else if (matchedOf fs src a ans).length > 0 then
      match (writeOf fs src a ans).err with
      | some m =>
        ⟨(writeOf fs src a ans).fs, .raised m,
          (purgeOf fs src a ans).prints ++ (writeOf fs src a ans).prints,
          (purgeOf fs src a ans).purged, matchedOf fs src a ans,
          (writeOf fs src a ans).written, targetDirOf src a⟩
      | none =>
        ⟨(writeOf fs src a ans).fs,
          .done (matchedOf fs src a ans).length,
          (purgeOf fs src a ans).prints ++ (writeOf fs src a ans).prints
            ++ [successMsg a (matchedOf fs src a ans).length (targetDirOf src a)],
          (purgeOf fs src a ans).purged, matchedOf fs src a ans,
          (writeOf fs src a ans).written, targetDirOf src a⟩
    else
      ⟨(purgeOf fs src a ans).fs, .done 0,
        (purgeOf fs src a ans).prints ++ ["No files found to be processed."],
        (purgeOf fs src a ans).purged, matchedOf fs src a ans, [],
        targetDirOf src a⟩
  else
    ⟨fs, .sourceMissing,
      ["Source directory defined in settings does not exist."],
      [], [], [], targetDirOf src a⟩

/-! ## Lemmas about the stable sort by modification time -/

lemma insertByMtime_perm (x : Entry) (l : List Entry) :
    List.Perm (insertByMtime x l) (x :: l) := by
  induction l with
  | nil => simp [insertByMtime]
  | cons y ys ih =>
    simp only [insertByMtime]
    by_cases h : x.data.mtime ≤ y.data.mtime
    · rw [if_pos h]
    · rw [if_neg h]
      exact (ih.cons y).trans (List.Perm.swap x y ys)

lemma sortByMtime_perm (l : List Entry) : List.Perm (sortByMtime l) l := by
  induction l with
  | nil => simp [sortByMtime]
  | cons x xs ih =>
    have : sortByMtime (x :: xs) = insertByMtime x (sortByMtime xs) := rfl
    rw [this]
    exact (insertByMtime_perm x (sortByMtime xs)).trans (ih.cons x)

lemma insertByMtime_pairwise (x : Entry) (l : List Entry)
    (h : List.Pairwise (fun u v => u.data.mtime ≤ v.data.mtime) l) :
    List.Pairwise (fun u v => u.data.mtime ≤ v.data.mtime) (insertByMtime x l) := by
  induction l with
  | nil => simp [insertByMtime]
  | cons y ys ih =>
    rw [List.pairwise_cons] at h
    obtain ⟨hy, hys⟩ := h
    simp only [insertByMtime]
    by_cases hxy : x.data.mtime ≤ y.data.mtime
    · rw [if_pos hxy]
      rw [List.pairwise_cons]
      refine ⟨?_, List.pairwise_cons.mpr ⟨hy, hys⟩⟩
      intro z hz
      rcases List.mem_cons.mp hz with rfl | hz2
      · exact hxy
      · exact le_trans hxy (hy z hz2)
    · rw [if_neg hxy]
      rw [List.pairwise_cons]
      refine ⟨?_, ih hys⟩
      intro z hz
      have hmem := (insertByMtime_perm x ys).mem_iff.mp hz
      rcases List.mem_cons.mp hmem with rfl | hz2
      · omega
      · exact hy z hz2

lemma sortByMtime_pairwise_le (l : List Entry) :
    List.Pairwise (fun u v => u.data.mtime ≤ v.data.mtime) (sortByMtime l) := by
  induction l with
  | nil => simp [sortByMtime]
  | cons x xs ih => exact insertByMtime_pairwise x (sortByMtime xs) ih

lemma sortByMtime_pairwise_lt (l : List Entry)
    (h : (l.map (fun e => e.data.mtime)).Nodup) :
    List.Pairwise (fun u v => u.data.mtime < v.data.mtime) (sortByMtime l) := by
  have hperm : List.Perm (sortByMtime l) l := sortByMtime_perm l
  have hnd : ((sortByMtime l).map (fun e => e.data.mtime)).Nodup :=
    ((hperm.map (fun e => e.data.mtime)).nodup_iff).mpr h
  have hne : List.Pairwise (fun u v : Entry => u.data.mtime ≠ v.data.mtime)
      (sortByMtime l) := List.pairwise_map.mp hnd
  have hle := sortByMtime_pairwise_le l
  exact (hle.and hne).imp (fun hp => lt_of_le_of_ne hp.1 hp.2)

/-! ## Frame lemmas for the filesystem operations -/

lemma addEntry_dirs (fs : FS) (e : Entry) : (fs.addEntry e).dirs = fs.dirs := rfl

lemma addEntry_clock (fs : FS) (e : Entry) : (fs.addEntry e).clock = fs.clock := rfl

lemma removeEntry_dirs (fs : FS) (d n : String) :
    (fs.removeEntry d n).dirs = fs.dirs := rfl

lemma removeEntry_clock (fs : FS) (d n : String) :
    (fs.removeEntry d n).clock = fs.clock := rfl

lemma removeEntries_dirs (es : List Entry) : ∀ fs : FS,
    (fs.removeEntries es).dirs = fs.dirs := by
  induction es with
  | nil => intro fs; rfl
  | cons e es ih =>
    intro fs
    have : fs.removeEntries (e :: es) =
        (fs.removeEntry e.dir e.name).removeEntries es := rfl
    rw [this, ih, removeEntry_dirs]

lemma removeEntries_clock (es : List Entry) : ∀ fs : FS,
    (fs.removeEntries es).clock = fs.clock := by
  induction es with
  | nil => intro fs; rfl
  | cons e es ih =>
    intro fs
    have : fs.removeEntries (e :: es) =
        (fs.removeEntry e.dir e.name).removeEntries es := rfl
    rw [this, ih, removeEntry_clock]

lemma removeEntry_mem (fs : FS) (d n : String) (x : Entry)
    (h : x ∈ (fs.removeEntry d n).entries) :
    x ∈ fs.entries ∧ ¬(x.dir = d ∧ x.name = n) := by
  simp only [FS.removeEntry, List.mem_filter] at h
  obtain ⟨hmem, hp⟩ := h
  refine ⟨hmem, ?_⟩
  intro ⟨hd, hn⟩
  simp [hd, hn] at hp

lemma removeEntries_mem (es : List Entry) : ∀ (fs : FS) (x : Entry),
    x ∈ (fs.removeEntries es).entries →
    x ∈ fs.entries ∧ ∀ e ∈ es, ¬(x.dir = e.dir ∧ x.name = e.name) := by
  induction es with
  | nil => intro fs x h; exact ⟨h, by simp⟩
  | cons e es ih =>
    intro fs x h
    have heq : fs.removeEntries (e :: es) =
        (fs.removeEntry e.dir e.name).removeEntries es := rfl
    rw [heq] at h
    obtain ⟨h1, h2⟩ := ih (fs.removeEntry e.dir e.name) x h
    obtain ⟨h3, h4⟩ := removeEntry_mem fs e.dir e.name x h1
    refine ⟨h3, ?_⟩
    intro e2 he2
    rcases List.mem_cons.mp he2 with rfl | he3
    · exact h4
    · exact h2 e2 he3

/-! ## Step equations for the link/copy loop -/

lemma writeFiles_nil (c : Bool) (t : String) (fs : FS) (i : Nat) :
    writeFiles c t fs [] i = ⟨fs, none, [], []⟩ := rfl

lemma writeFiles_cons_fail (c : Bool) (t : String) (fs : FS) (f : Entry)
    (rest : List Entry) (i : Nat)
    (hc : fs.failPaths.contains (t, toString i ++ ".jpg") = true) :
    writeFiles c t fs (f :: rest) i =
      ⟨fs, some "FilesystemError", [osPathJoin t (toString i ++ ".jpg")], []⟩ := by
  have hc2 : (t, toString i ++ ".jpg") ∈ fs.failPaths := by simpa using hc
  simp [writeFiles, hc2]

lemma writeFiles_cons_copy_none (t : String) (fs : FS) (f : Entry)
    (rest : List Entry) (i : Nat)
    (hc : fs.failPaths.contains (t, toString i ++ ".jpg") = false)
    (hrb : fs.readBytes 40 f.dir f.name = none) :
    writeFiles true t fs (f :: rest) i =
      ⟨fs, some "FileNotFoundError", [osPathJoin t (toString i ++ ".jpg")], []⟩ := by
  have hc2 : (t, toString i ++ ".jpg") ∉ fs.failPaths := by simpa using hc
  simp [writeFiles, hc2, hrb]

lemma writeFiles_cons_copy (t : String) (fs : FS) (f : Entry)
    (rest : List Entry) (i : Nat) (bytes : String)
    (hc : fs.failPaths.contains (t, toString i ++ ".jpg") = false)
    (hrb : fs.readBytes 40 f.dir f.name = some bytes) :
    writeFiles true t fs (f :: rest) i =
      ⟨(writeFiles true t ((fs.removeEntry t (toString i ++ ".jpg")).addEntry
          ⟨t, toString i ++ ".jpg", ⟨fs.clock, false, bytes⟩⟩) rest (i + 1)).fs,
       (writeFiles true t ((fs.removeEntry t (toString i ++ ".jpg")).addEntry
          ⟨t, toString i ++ ".jpg", ⟨fs.clock, false, bytes⟩⟩) rest (i + 1)).err,
       osPathJoin t (toString i ++ ".jpg") ::
         (writeFiles true t ((fs.removeEntry t (toString i ++ ".jpg")).addEntry
          ⟨t, toString i ++ ".jpg", ⟨fs.clock, false, bytes⟩⟩) rest (i + 1)).prints,
       ⟨t, toString i ++ ".jpg", ⟨fs.clock, false, bytes⟩⟩ ::
         (writeFiles true t ((fs.removeEntry t (toString i ++ ".jpg")).addEntry
          ⟨t, toString i ++ ".jpg", ⟨fs.clock, false, bytes⟩⟩) rest (i + 1)).written⟩ := by
  have hc2 : (t, toString i ++ ".jpg") ∉ fs.failPaths := by simpa using hc
  simp [writeFiles, hc2, hrb]

lemma writeFiles_cons_exists (t : String) (fs : FS) (f : Entry)
    (rest : List Entry) (i : Nat)
    (hc : fs.failPaths.contains (t, toString i ++ ".jpg") = false)
    (he : fs.hasEntry t (toString i ++ ".jpg") = true) :
    writeFiles false t fs (f :: rest) i =
      ⟨fs, some "FileExistsError", [osPathJoin t (toString i ++ ".jpg")], []⟩ := by
  have hc2 : (t, toString i ++ ".jpg") ∉ fs.failPaths := by simpa using hc
  simp [writeFiles, hc2, he]

lemma writeFiles_cons_link (t : String) (fs : FS) (f : Entry)
    (rest : List Entry) (i : Nat)
    (hc : fs.failPaths.contains (t, toString i ++ ".jpg") = false)
    (he : fs.hasEntry t (toString i ++ ".jpg") = false) :
    writeFiles false t fs (f :: rest) i =
      ⟨(writeFiles false t (fs.addEntry
          ⟨t, toString i ++ ".jpg", ⟨fs.clock, true, osPathJoin f.dir f.name⟩⟩) rest (i + 1)).fs,
       (writeFiles false t (fs.addEntry
          ⟨t, toString i ++ ".jpg", ⟨fs.clock, true, osPathJoin f.dir f.name⟩⟩) rest (i + 1)).err,
       osPathJoin t (toString i ++ ".jpg") ::
         (writeFiles false t (fs.addEntry
          ⟨t, toString i ++ ".jpg", ⟨fs.clock, true, osPathJoin f.dir f.name⟩⟩) rest (i + 1)).prints,
       ⟨t, toString i ++ ".jpg", ⟨fs.clock, true, osPathJoin f.dir f.name⟩⟩ ::
         (writeFiles false t (fs.addEntry
          ⟨t, toString i ++ ".jpg", ⟨fs.clock, true, osPathJoin f.dir f.name⟩⟩) rest (i + 1)).written⟩ := by
  have hc2 : (t, toString i ++ ".jpg") ∉ fs.failPaths := by simpa using hc
  simp [writeFiles, hc2, he]

/-! ## Characterisation of the link/copy loop -/

lemma writeFiles_fs_dirs (c : Bool) (t : String) (files : List Entry) :
    ∀ (fs : FS) (i : Nat), (writeFiles c t fs files i).fs.dirs = fs.dirs := by
  induction files with
  | nil => intro fs i; rfl
  | cons f rest ih =>
    intro fs i
    by_cases hc : fs.failPaths.contains (t, toString i ++ ".jpg") = true
    · rw [writeFiles_cons_fail c t fs f rest i hc]
    · have hc2 : fs.failPaths.contains (t, toString i ++ ".jpg") = false :=
        Bool.eq_false_iff.mpr hc
      cases c with
      | true =>
        cases hrb : fs.readBytes 40 f.dir f.name with
        | none => rw [writeFiles_cons_copy_none t fs f rest i hc2 hrb]
        | some bytes =>
          rw [writeFiles_cons_copy t fs f rest i bytes hc2 hrb]
          rw [ih _ (i + 1)]
          rfl
      | false =>
        cases he : fs.hasEntry t (toString i ++ ".jpg") with
        | true => rw [writeFiles_cons_exists t fs f rest i hc2 he]
        | false =>
          rw [writeFiles_cons_link t fs f rest i hc2 he]
          rw [ih _ (i + 1)]
          rfl

lemma writeFiles_names (c : Bool) (t : String) (files : List Entry) :
    ∀ (fs : FS) (i : Nat), (writeFiles c t fs files i).err = none →
      (writeFiles c t fs files i).written.map (fun e => (e.dir, e.name)) =
        (List.enumFrom i files).map (fun p => (t, toString p.1 ++ ".jpg")) := by
  induction files with
  | nil => intro fs i _; simp [writeFiles_nil]
  | cons f rest ih =>
    intro fs i h
    by_cases hc : fs.failPaths.contains (t, toString i ++ ".jpg") = true
    · rw [writeFiles_cons_fail c t fs f rest i hc] at h
      exact absurd h (by simp)
    · have hc2 : fs.failPaths.contains (t, toString i ++ ".jpg") = false :=
        Bool.eq_false_iff.mpr hc
      cases c with
      | true =>
        cases hrb : fs.readBytes 40 f.dir f.name with
        | none =>
          rw [writeFiles_cons_copy_none t fs f rest i hc2 hrb] at h
          exact absurd h (by simp)
        | some bytes =>
          rw [writeFiles_cons_copy t fs f rest i bytes hc2 hrb] at h ⊢
          rw [List.enumFrom_cons]
          simp only [List.map_cons]
          exact congrArg₂ List.cons rfl (ih _ (i + 1) h)
      | false =>
        cases he : fs.hasEntry t (toString i ++ ".jpg") with
        | true =>
          rw [writeFiles_cons_exists t fs f rest i hc2 he] at h
          exact absurd h (by simp)
        | false =>
          rw [writeFiles_cons_link t fs f rest i hc2 he] at h ⊢
          rw [List.enumFrom_cons]
          simp only [List.map_cons]
          exact congrArg₂ List.cons rfl (ih _ (i + 1) h)

lemma writeFiles_symlink (t : String) (files : List Entry) :
    ∀ (fs : FS) (i : Nat), (writeFiles false t fs files i).err = none →
      (writeFiles false t fs files i).written =
        (List.enumFrom i files).map (fun p =>
          (⟨t, toString p.1 ++ ".jpg",
            ⟨fs.clock, true, osPathJoin p.2.dir p.2.name⟩⟩ : Entry)) := by
  induction files with
  | nil => intro fs i _; simp [writeFiles_nil]
  | cons f rest ih =>
    intro fs i h
    by_cases hc : fs.failPaths.contains (t, toString i ++ ".jpg") = true
    · rw [writeFiles_cons_fail false t fs f rest i hc] at h
      exact absurd h (by simp)
    · have hc2 : fs.failPaths.contains (t, toString i ++ ".jpg") = false :=
        Bool.eq_false_iff.mpr hc
      cases he : fs.hasEntry t (toString i ++ ".jpg") with
      | true =>
        rw [writeFiles_cons_exists t fs f rest i hc2 he] at h
        exact absurd h (by simp)
      | false =>
        rw [writeFiles_cons_link t fs f rest i hc2 he] at h ⊢
        rw [List.enumFrom_cons]
        simp only [List.map_cons]
        have ih2 := ih (fs.addEntry
          ⟨t, toString i ++ ".jpg", ⟨fs.clock, true, osPathJoin f.dir f.name⟩⟩)
          (i + 1) h
        rw [addEntry_clock] at ih2
        exact congrArg₂ List.cons rfl ih2

lemma writeFiles_written_shape (c : Bool) (t : String) (files : List Entry) :
    ∀ (fs : FS) (i : Nat) (e : Entry), e ∈ (writeFiles c t fs files i).written →
      e.dir = t ∧ ∃ k : Nat, e.name = toString k ++ ".jpg" := by
  induction files with
  | nil => intro fs i e he; simp [writeFiles_nil] at he
  | cons f rest ih =>
    intro fs i e he
    by_cases hc : fs.failPaths.contains (t, toString i ++ ".jpg") = true
    · rw [writeFiles_cons_fail c t fs f rest i hc] at he
      simp at he
    · have hc2 : fs.failPaths.contains (t, toString i ++ ".jpg") = false :=
        Bool.eq_false_iff.mpr hc
      cases c with
      | true =>
        cases hrb : fs.readBytes 40 f.dir f.name with
        | none =>
          rw [writeFiles_cons_copy_none t fs f rest i hc2 hrb] at he
          simp at he
        | some bytes =>
          rw [writeFiles_cons_copy t fs f rest i bytes hc2 hrb] at he
          rcases List.mem_cons.mp he with rfl | he2
          · exact ⟨rfl, i, rfl⟩
          · exact ih _ (i + 1) e he2
      | false =>
        cases hee : fs.hasEntry t (toString i ++ ".jpg") with
        | true =>
          rw [writeFiles_cons_exists t fs f rest i hc2 hee] at he
          simp at he
        | false =>
          rw [writeFiles_cons_link t fs f rest i hc2 hee] at he
          rcases List.mem_cons.mp he with rfl | he2
          · exact ⟨rfl, i, rfl⟩
          · exact ih _ (i + 1) e he2

lemma writeFiles_entries_sub (c : Bool) (t : String) (files : List Entry) :
    ∀ (fs : FS) (i : Nat) (x : Entry), x ∈ (writeFiles c t fs files i).fs.entries →
      x ∈ (writeFiles c t fs files i).written ∨ x ∈ fs.entries := by
  induction files with
  | nil => intro fs i x hx; exact Or.inr hx
  | cons f rest ih =>
    intro fs i x hx
    by_cases hc : fs.failPaths.contains (t, toString i ++ ".jpg") = true
    · rw [writeFiles_cons_fail c t fs f rest i hc] at hx ⊢
      exact Or.inr hx
    · have hc2 : fs.failPaths.contains (t, toString i ++ ".jpg") = false :=
        Bool.eq_false_iff.mpr hc
      cases c with
      | true =>
        cases hrb : fs.readBytes 40 f.dir f.name with
        | none =>
          rw [writeFiles_cons_copy_none t fs f rest i hc2 hrb] at hx ⊢
          exact Or.inr hx
        | some bytes =>
          rw [writeFiles_cons_copy t fs f rest i bytes hc2 hrb] at hx ⊢
          rcases ih _ (i + 1) x hx with hw | hfs2
          · exact Or.inl (List.mem_cons_of_mem _ hw)
          · rcases List.mem_cons.mp hfs2 with rfl | hrem
            · exact Or.inl (List.mem_cons_self _ _)
            · exact Or.inr (removeEntry_mem fs t (toString i ++ ".jpg") x hrem).1
      | false =>
        cases hee : fs.hasEntry t (toString i ++ ".jpg") with
        | true =>
          rw [writeFiles_cons_exists t fs f rest i hc2 hee] at hx ⊢
          exact Or.inr hx
        | false =>
          rw [writeFiles_cons_link t fs f rest i hc2 hee] at hx ⊢
          rcases ih _ (i + 1) x hx with hw | hfs2
          · exact Or.inl (List.mem_cons_of_mem _ hw)
          · rcases List.mem_cons.mp hfs2 with rfl | hold
            · exact Or.inl (List.mem_cons_self _ _)
            · exact Or.inr hold

/-! ## Stability of lookups outside the target directory -/

lemma getEntry_addEntry_ne (fs : FS) (e : Entry) (d n : String)
    (hd : e.dir ≠ d) : (fs.addEntry e).getEntry d n = fs.getEntry d n := by
  have hb : (e.dir == d) = false := beq_eq_false_iff_ne.mpr hd
  simp [FS.addEntry, FS.getEntry, List.find?_cons, hb]

lemma find?_filter_of_ne (td tn d n : String) (hd : d ≠ td)
    (l : List Entry) :
    List.find? (fun e => e.dir == d && e.name == n)
        (l.filter (fun e => !(e.dir == td && e.name == tn))) =
      List.find? (fun e => e.dir == d && e.name == n) l := by
  induction l with
  | nil => rfl
  | cons a l ih =>
    rw [List.filter_cons]
    by_cases hdrop : (a.dir == td && a.name == tn) = true
    · have hnot : (!(a.dir == td && a.name == tn)) = false := by rw [hdrop]; rfl
      rw [hnot, if_neg (by simp)]
      have hadir : a.dir = td := by
        have h1 := (Bool.and_eq_true _ _).mp hdrop
        exact eq_of_beq h1.1
      have hpred : (a.dir == d && a.name == n) = false := by
        have hb : (a.dir == d) = false := by
          refine beq_eq_false_iff_ne.mpr ?_
          rw [hadir]
          exact Ne.symm hd
        rw [hb, Bool.false_and]
      rw [@List.find?_cons_of_neg _ (fun e => e.dir == d && e.name == n) a l
        (by simp only [hpred]; simp)]
      exact ih
    · have hkeep : (a.dir == td && a.name == tn) = false :=
        Bool.eq_false_iff.mpr hdrop
      have hnot : (!(a.dir == td && a.name == tn)) = true := by rw [hkeep]; rfl
      rw [hnot, if_pos rfl]
      cases hpa : (a.dir == d && a.name == n) with
      | true =>
        rw [@List.find?_cons_of_pos _ (fun e => e.dir == d && e.name == n) a _ hpa,
          @List.find?_cons_of_pos _ (fun e => e.dir == d && e.name == n) a l hpa]
      | false =>
        rw [@List.find?_cons_of_neg _ (fun e => e.dir == d && e.name == n) a _
            (by simp only [hpa]; simp),
          @List.find?_cons_of_neg _ (fun e => e.dir == d && e.name == n) a l
            (by simp only [hpa]; simp)]
        exact ih

lemma getEntry_removeEntry_ne (fs : FS) (td tn d n : String)
    (hd : d ≠ td) : (fs.removeEntry td tn).getEntry d n = fs.getEntry d n := by
  simp only [FS.removeEntry, FS.getEntry]
  rw [find?_filter_of_ne td tn d n hd]

lemma readBytes_succ_regular (fs : FS) (fuel : Nat) (d n : String)
    (f : FileData) (hget : fs.getEntry d n = some f)
    (hsym : f.isSymlink = false) :
    fs.readBytes (fuel + 1) d n = some f.content := by
  simp [FS.readBytes, hget, hsym]

lemma writeFiles_copy (t : String) (files : List Entry) :
    ∀ (fs : FS) (i : Nat),
      (writeFiles true t fs files i).err = none →
      (∀ f ∈ files, f.dir ≠ t ∧ fs.getEntry f.dir f.name = some f.data ∧
        f.data.isSymlink = false) →
      (writeFiles true t fs files i).written =
        (List.enumFrom i files).map (fun p =>
          (⟨t, toString p.1 ++ ".jpg",
            ⟨fs.clock, false, p.2.data.content⟩⟩ : Entry)) := by
  induction files with
  | nil => intro fs i _ _; simp [writeFiles_nil]
  | cons f rest ih =>
    intro fs i h hsrc
    obtain ⟨hfd, hfget, hfsym⟩ := hsrc f (List.mem_cons_self f rest)
    have hrb : fs.readBytes 40 f.dir f.name = some f.data.content := by
      have h40 : (40 : Nat) = 39 + 1 := rfl
      rw [h40]
      exact readBytes_succ_regular fs 39 f.dir f.name f.data hfget hfsym
    by_cases hc : fs.failPaths.contains (t, toString i ++ ".jpg") = true
    · rw [writeFiles_cons_fail true t fs f rest i hc] at h
      exact absurd h (by simp)
    · have hc2 : fs.failPaths.contains (t, toString i ++ ".jpg") = false :=
        Bool.eq_false_iff.mpr hc
      rw [writeFiles_cons_copy t fs f rest i f.data.content hc2 hrb] at h ⊢
      rw [List.enumFrom_cons]
      simp only [List.map_cons]
      have hsrc2 : ∀ g ∈ rest,
          g.dir ≠ t ∧
          ((fs.removeEntry t (toString i ++ ".jpg")).addEntry
            ⟨t, toString i ++ ".jpg",
              ⟨fs.clock, false, f.data.content⟩⟩).getEntry g.dir g.name =
            some g.data ∧
          g.data.isSymlink = false := by
        intro g hg
        obtain ⟨hgd, hgget, hgsym⟩ := hsrc g (List.mem_cons_of_mem f hg)
        refine ⟨hgd, ?_, hgsym⟩
        rw [getEntry_addEntry_ne _ _ _ _ (Ne.symm hgd)]
        rw [getEntry_removeEntry_ne fs t (toString i ++ ".jpg") g.dir g.name hgd]
        exact hgget
      have ih2 := ih ((fs.removeEntry t (toString i ++ ".jpg")).addEntry
        ⟨t, toString i ++ ".jpg", ⟨fs.clock, false, f.data.content⟩⟩)
        (i + 1) h hsrc2
      have hclock : ((fs.removeEntry t (toString i ++ ".jpg")).addEntry
        ⟨t, toString i ++ ".jpg", ⟨fs.clock, false, f.data.content⟩⟩).clock
          = fs.clock := rfl
      rw [hclock] at ih2
      exact congrArg₂ List.cons rfl ih2

/-! ## Case analysis of the purge block -/

lemma purgePhase_no_purge (fs : FS) (t : String) (s : Bool) (ans : String) :
    purgePhase fs t false s ans = ⟨fs, false, [], []⟩ := rfl

lemma purgePhase_empty (fs : FS) (t : String) (p s : Bool) (ans : String)
    (h : fs.globStar t = []) : purgePhase fs t p s ans = ⟨fs, false, [], []⟩ := by
  cases p with
  | false => rfl
  | true => simp [purgePhase, h]

lemma purgePhase_decline (fs : FS) (t : String) (ans : String)
    (hne : fs.globStar t ≠ []) (hans : pyLower ans ≠ "y") :
    purgePhase fs t true false ans =
      ⟨fs, true, purgePrompts t ++ ["Operation cancelled."], []⟩ := by
  have hlen : (fs.globStar t).length > 0 := List.length_pos.mpr hne
  simp [purgePhase, hlen, hans]

lemma purgePhase_proceed (fs : FS) (t : String) (silent : Bool) (ans : String)
    (hne : fs.globStar t ≠ []) (hok : silent = true ∨ pyLower ans = "y") :
    purgePhase fs t true silent ans =
      ⟨fs.removeEntries (fs.globStar t), false,
        if silent = false then purgePrompts t else [], fs.globStar t⟩ := by
  have hlen : (fs.globStar t).length > 0 := List.length_pos.mpr hne
  rcases hok with hs | hy
  · subst hs
    simp [purgePhase, hlen]
  · cases silent with
    | true => simp [purgePhase, hlen]
    | false => simp [purgePhase, hlen, hy]

lemma purgeOf_no_purge (fs : FS) (src : String) (a : CollectArgs) (ans : String)
    (hp : a.purge = false) : purgeOf fs src a ans = ⟨preFS fs src a, false, [], []⟩ := by
  rw [purgeOf, hp]
  exact purgePhase_no_purge _ _ _ _

lemma preFS_entries (fs : FS) (src : String) (a : CollectArgs) :
    (preFS fs src a).entries = fs.entries := by
  rw [preFS]
  split <;> rfl

lemma preFS_clock (fs : FS) (src : String) (a : CollectArgs) :
    (preFS fs src a).clock = fs.clock := by
  rw [preFS]
  split <;> rfl

lemma preFS_isdir_target (fs : FS) (src : String) (a : CollectArgs) :
    (preFS fs src a).isdir (targetDirOf src a) = true := by
  rw [preFS]
  split
  · assumption
  · simp [FS.isdir, FS.makedirs]

/-! ## Branch equations for collect_images -/

lemma collect_images_sourceMissing_eq (fs : FS) (src : String)
    (a : CollectArgs) (ans : String) (h : fs.isdir src = false) :
    collect_images fs src a ans =
      ⟨fs, .sourceMissing,
        ["Source directory defined in settings does not exist."],
        [], [], [], targetDirOf src a⟩ := by
  simp [collect_images, h]

lemma collect_images_cancelled_eq (fs : FS) (src : String)
    (a : CollectArgs) (ans : String) (h1 : fs.isdir src = true)
    (h2 : (purgeOf fs src a ans).cancelled = true) :
    collect_images fs src a ans =
      ⟨(purgeOf fs src a ans).fs, .cancelled, (purgeOf fs src a ans).prints,
        [], [], [], targetDirOf src a⟩ := by
  simp [collect_images, h1, h2]

lemma collect_images_noFiles_eq (fs : FS) (src : String)
    (a : CollectArgs) (ans : String) (h1 : fs.isdir src = true)
    (h2 : (purgeOf fs src a ans).cancelled = false)
    (h3 : matchedOf fs src a ans = []) :
    collect_images fs src a ans =
      ⟨(purgeOf fs src a ans).fs, .done 0,
        (purgeOf fs src a ans).prints ++ ["No files found to be processed."],
        (purgeOf fs src a ans).purged, matchedOf fs src a ans, [],
        targetDirOf src a⟩ := by
  simp [collect_images, h1, h2, h3]

lemma collect_images_raised_eq (fs : FS) (src : String)
    (a : CollectArgs) (ans : String) (m : String) (h1 : fs.isdir src = true)
    (h2 : (purgeOf fs src a ans).cancelled = false)
    (h4 : matchedOf fs src a ans ≠ [])
    (h3 : (writeOf fs src a ans).err = some m) :
    collect_images fs src a ans =
      ⟨(writeOf fs src a ans).fs, .raised m,
        (purgeOf fs src a ans).prints ++ (writeOf fs src a ans).prints,
        (purgeOf fs src a ans).purged, matchedOf fs src a ans,
        (writeOf fs src a ans).written, targetDirOf src a⟩ := by
  have hlen : (matchedOf fs src a ans).length > 0 := List.length_pos.mpr h4
  simp [collect_images, h1, h2, hlen, h3]

lemma collect_images_done_eq (fs : FS) (src : String)
    (a : CollectArgs) (ans : String) (h1 : fs.isdir src = true)
    (h2 : (purgeOf fs src a ans).cancelled = false)
    (h4 : matchedOf fs src a ans ≠ [])
    (h3 : (writeOf fs src a ans).err = none) :
    collect_images fs src a ans =
      ⟨(writeOf fs src a ans).fs, .done (matchedOf fs src a ans).length,
        (purgeOf fs src a ans).prints ++ (writeOf fs src a ans).prints
          ++ [successMsg a (matchedOf fs src a ans).length (targetDirOf src a)],
        (purgeOf fs src a ans).purged, matchedOf fs src a ans,
        (writeOf fs src a ans).written, targetDirOf src a⟩ := by
  have hlen : (matchedOf fs src a ans).length > 0 := List.length_pos.mpr h4
  simp [collect_images, h1, h2, hlen, h3]

/-! ## Run-level helper lemmas -/

lemma writeOf_eq (fs : FS) (src : String) (a : CollectArgs) (ans : String) :
    writeOf fs src a ans =
      writeFiles a.copy (targetDirOf src a) (purgeOf fs src a ans).fs
        (sortByMtime (matchedOf fs src a ans)) 0 := rfl

lemma purgePhase_fs_clock (fs : FS) (t : String) (p s : Bool) (ans : String) :
    (purgePhase fs t p s ans).fs.clock = fs.clock := by
  rw [purgePhase]
  repeat' split
  all_goals simp [removeEntries_clock]

lemma purgePhase_fs_dirs (fs : FS) (t : String) (p s : Bool) (ans : String) :
    (purgePhase fs t p s ans).fs.dirs = fs.dirs := by
  rw [purgePhase]
  repeat' split
  all_goals simp [removeEntries_dirs]

lemma purgeOf_fs_clock (fs : FS) (src : String) (a : CollectArgs) (ans : String) :
    (purgeOf fs src a ans).fs.clock = fs.clock := by
  rw [purgeOf, purgePhase_fs_clock, preFS_clock]

lemma purgeOf_fs_dirs (fs : FS) (src : String) (a : CollectArgs) (ans : String) :
    (purgeOf fs src a ans).fs.dirs = (preFS fs src a).dirs := by
  rw [purgeOf, purgePhase_fs_dirs]

lemma isdir_of_dirs_eq (fs1 fs2 : FS) (d : String) (h : fs1.dirs = fs2.dirs) :
    fs1.isdir d = fs2.isdir d := by
  rw [FS.isdir, FS.isdir, h]

lemma collect_targetDir (fs : FS) (src : String) (a : CollectArgs)
    (ans : String) :
    (collect_images fs src a ans).targetDir = targetDirOf src a := by
  by_cases h1 : fs.isdir src = true
  · by_cases h2 : (purgeOf fs src a ans).cancelled = true
    · rw [collect_images_cancelled_eq fs src a ans h1 h2]
    · have h2f : (purgeOf fs src a ans).cancelled = false :=
        Bool.eq_false_iff.mpr h2
      by_cases h3 : matchedOf fs src a ans = []
      · rw [collect_images_noFiles_eq fs src a ans h1 h2f h3]
      · cases herr : (writeOf fs src a ans).err with
        | none => rw [collect_images_done_eq fs src a ans h1 h2f h3 herr]
        | some m => rw [collect_images_raised_eq fs src a ans m h1 h2f h3 herr]
  · have h1f : fs.isdir src = false := Bool.eq_false_iff.mpr h1
    rw [collect_images_sourceMissing_eq fs src a ans h1f]

lemma collect_written_sub (fs : FS) (src : String) (a : CollectArgs)
    (ans : String) :
    ∀ e ∈ (collect_images fs src a ans).written,
      e ∈ (writeOf fs src a ans).written := by
  intro e he
  by_cases h1 : fs.isdir src = true
  · by_cases h2 : (purgeOf fs src a ans).cancelled = true
    · rw [collect_images_cancelled_eq fs src a ans h1 h2] at he
      simp at he
    · have h2f : (purgeOf fs src a ans).cancelled = false :=
        Bool.eq_false_iff.mpr h2
      by_cases h3 : matchedOf fs src a ans = []
      · rw [collect_images_noFiles_eq fs src a ans h1 h2f h3] at he
        simp at he
      · cases herr : (writeOf fs src a ans).err with
        | none =>
          rw [collect_images_done_eq fs src a ans h1 h2f h3 herr] at he
          exact he
        | some m =>
          rw [collect_images_raised_eq fs src a ans m h1 h2f h3 herr] at he
          exact he
  · have h1f : fs.isdir src = false := Bool.eq_false_iff.mpr h1
    rw [collect_images_sourceMissing_eq fs src a ans h1f] at he
    simp at he

lemma collect_fs_dirs (fs : FS) (src : String) (a : CollectArgs)
    (ans : String) (h1 : fs.isdir src = true) :
    (collect_images fs src a ans).fs.dirs = (preFS fs src a).dirs := by
  by_cases h2 : (purgeOf fs src a ans).cancelled = true
  · rw [collect_images_cancelled_eq fs src a ans h1 h2]
    exact purgeOf_fs_dirs fs src a ans
  · have h2f : (purgeOf fs src a ans).cancelled = false :=
      Bool.eq_false_iff.mpr h2
    by_cases h3 : matchedOf fs src a ans = []
    · rw [collect_images_noFiles_eq fs src a ans h1 h2f h3]
      exact purgeOf_fs_dirs fs src a ans
    · cases herr : (writeOf fs src a ans).err with
      | none =>
        rw [collect_images_done_eq fs src a ans h1 h2f h3 herr]
        rw [writeOf_eq]
        rw [writeFiles_fs_dirs]
        exact purgeOf_fs_dirs fs src a ans
      | some m =>
        rw [collect_images_raised_eq fs src a ans m h1 h2f h3 herr]
        rw [writeOf_eq]
        rw [writeFiles_fs_dirs]
        exact purgeOf_fs_dirs fs src a ans

/-! ## String facts about the generated names -/

lemma string_data_append (a b : String) : (a ++ b).data = a.data ++ b.data := rfl

lemma jpg_name_ne_settings (k : Nat) :
    toString k ++ ".jpg" ≠ "settings.py" := by
  intro h
  have h2 : (toString k ++ ".jpg").data.reverse = "settings.py".data.reverse := by
    rw [h]
  rw [string_data_append, List.reverse_append] at h2
  have e1 : ".jpg".data.reverse = ['g', 'p', 'j', '.'] := rfl
  rw [e1] at h2
  have e2 : "settings.py".data.reverse =
      ['y', 'p', '.', 's', 'g', 'n', 'i', 't', 't', 'e', 's'] := rfl
  rw [e2] at h2
  have h3 : 'g' = 'y' := by
    have h4 := congrArg (fun l => l.head?) h2
    simp only [List.head?] at h4
    exact Option.some.inj h4
  exact absurd h3 (by decide)

/-! ## Claim C3: collect with a missing source directory -/

/-- C3 (amended): for every run of collect_images whose configured source
directory does not exist, the function prints the report that the source
directory does not exist and returns normally - it raises no exception -
and the filesystem is left entirely unchanged (in particular no directory
is created). -/
theorem c3_missing_source_reports_without_raising
    (fs : FS) (src : String) (a : CollectArgs) (ans : String)
    (h : fs.isdir src = false) :
    (collect_images fs src a ans).fs = fs ∧
    (collect_images fs src a ans).outcome = CollectOutcome.sourceMissing ∧
    (collect_images fs src a ans).outcome.isRaised = false ∧
    (collect_images fs src a ans).written = [] ∧
    (collect_images fs src a ans).prints =
      ["Source directory defined in settings does not exist."] := by
  rw [collect_images_sourceMissing_eq fs src a ans h]
  exact ⟨rfl, rfl, rfl, rfl, rfl⟩

/-- A filesystem in which the configured source directory /src does not
exist. -/
def fsC3 : FS := ⟨["/other"], [], [], 0⟩

/-- Arguments for the C3 run. -/
def argsC3 : CollectArgs := ⟨1, "/t", "", false, false, false⟩

/-- C3 counterexample: the claim says the operation fails with a
ConfigurationError; on this concrete run with a missing source directory
the function instead returns normally (no exception of any kind is
raised - the outcome is the printed sourceMissing report), so the run
does not fail; the filesystem is indeed left unchanged. -/
theorem c3_counterexample :
    (collect_images fsC3 "/src" argsC3 "x").outcome =
      CollectOutcome.sourceMissing ∧
    (collect_images fsC3 "/src" argsC3 "x").outcome.isRaised = false ∧
    (collect_images fsC3 "/src" argsC3 "x").fs = fsC3 := by decide

/-- Witness for the C3 theorem at a concrete input. -/
theorem c3_missing_source_reports_without_raising_witness :
    (collect_images fsC3 "/missing" argsC3 "x").fs = fsC3 ∧
    (collect_images fsC3 "/missing" argsC3 "x").outcome =
      CollectOutcome.sourceMissing ∧
    (collect_images fsC3 "/missing" argsC3 "x").outcome.isRaised = false ∧
    (collect_images fsC3 "/missing" argsC3 "x").written = [] ∧
    (collect_images fsC3 "/missing" argsC3 "x").prints =
      ["Source directory defined in settings does not exist."] :=
  c3_missing_source_reports_without_raising fsC3 "/missing" argsC3 "x" (by decide)

/-! ## Claim C2: declining the purge confirmation -/

/-- C2 (amended): for every run of collect_images with purge requested,
silent mode off, an existing non-empty target directory, and a
confirmation answer whose lowercased form is not "y", the operation
aborts: the filesystem is unchanged (nothing deleted, no symlink or copy
created), the cancellation is reported, and the outcome is the normal
cancelled return, not an error. (The lowercasing is forced by the code:
input().lower() != 'y' accepts "Y" as confirmation.) -/
theorem c2_decline_aborts_everything
    (fs : FS) (src : String) (a : CollectArgs) (ans : String)
    (h1 : fs.isdir src = true)
    (htd : fs.isdir (targetDirOf src a) = true)
    (hp : a.purge = true) (hs : a.silent = false)
    (hne : fs.globStar (targetDirOf src a) ≠ [])
    (hans : pyLower ans ≠ "y") :
    (collect_images fs src a ans).fs = fs ∧
    (collect_images fs src a ans).outcome = CollectOutcome.cancelled ∧
    (collect_images fs src a ans).outcome.isRaised = false ∧
    (collect_images fs src a ans).written = [] ∧
    (collect_images fs src a ans).purged = [] ∧
    (collect_images fs src a ans).prints =
      purgePrompts (targetDirOf src a) ++ ["Operation cancelled."] := by
  have hpre : preFS fs src a = fs := by rw [preFS, if_pos htd]
  have hpg : purgeOf fs src a ans =
      ⟨fs, true, purgePrompts (targetDirOf src a) ++ ["Operation cancelled."],
        []⟩ := by
    rw [purgeOf, hpre, hp, hs]
    exact purgePhase_decline fs (targetDirOf src a) ans hne hans
  have hc := collect_images_cancelled_eq fs src a ans h1 (by rw [hpg])
  rw [hc, hpg]
  exact ⟨rfl, rfl, rfl, rfl, rfl, rfl⟩

/-- A filesystem with a non-empty target directory /t and no matching
source file. -/
def fsC2 : FS := ⟨["/src", "/t"], [⟨"/t", "old.jpg", ⟨1, false, "O"⟩⟩], [], 9⟩

/-- Arguments asking for a purge with confirmation. -/
def argsC2 : CollectArgs := ⟨1, "/t", "", true, false, false⟩

/-- C2 counterexample: the answer "Y" is not the string "y", so by the
claim the operation should abort with nothing deleted; on this concrete
run the code lowercases the answer, treats it as consent, deletes the
target file old.jpg and completes normally. -/
theorem c2_counterexample :
    "Y" ≠ "y" ∧
    (collect_images fsC2 "/src" argsC2 "Y").outcome ≠
      CollectOutcome.cancelled ∧
    (collect_images fsC2 "/src" argsC2 "Y").purged =
      [⟨"/t", "old.jpg", ⟨1, false, "O"⟩⟩] ∧
    (collect_images fsC2 "/src" argsC2 "Y").fs.hasEntry "/t" "old.jpg" =
      false := by decide

/-- Witness for the C2 theorem at a concrete input. -/
theorem c2_decline_aborts_everything_witness :
    pyLower "N" ≠ "y" ∧
    (collect_images fsC2 "/src" argsC2 "N").fs = fsC2 ∧
    (collect_images fsC2 "/src" argsC2 "N").outcome =
      CollectOutcome.cancelled ∧
    (collect_images fsC2 "/src" argsC2 "N").written = [] :=
  ⟨by decide,
   (c2_decline_aborts_everything fsC2 "/src" argsC2 "N" (by decide) (by decide)
     (by decide) (by decide) (by decide) (by decide)).1,
   (c2_decline_aborts_everything fsC2 "/src" argsC2 "N" (by decide) (by decide)
     (by decide) (by decide) (by decide) (by decide)).2.1,
   (c2_decline_aborts_everything fsC2 "/src" argsC2 "N" (by decide) (by decide)
     (by decide) (by decide) (by decide) (by decide)).2.2.2.1⟩

/-! ## Claim C6: a glob that matches nothing -/

/-- C6: for every run of collect_images that reaches the matching phase
(source directory exists and the purge was not cancelled) and whose glob
pattern matches no files, the operation reports zero processed files
("No files found to be processed."), creates no target entries, and does
not raise an error. -/
theorem c6_no_matches_reports_zero
    (fs : FS) (src : String) (a : CollectArgs) (ans : String)
    (h1 : fs.isdir src = true)
    (h2 : (purgeOf fs src a ans).cancelled = false)
    (h3 : matchedOf fs src a ans = []) :
    (collect_images fs src a ans).outcome = CollectOutcome.done 0 ∧
    (collect_images fs src a ans).outcome.isRaised = false ∧
    (collect_images fs src a ans).written = [] ∧
    (collect_images fs src a ans).fs = (purgeOf fs src a ans).fs ∧
    (collect_images fs src a ans).prints =
      (purgeOf fs src a ans).prints ++ ["No files found to be processed."] := by
  rw [collect_images_noFiles_eq fs src a ans h1 h2 h3]
  exact ⟨rfl, rfl, rfl, rfl, rfl⟩

/-- A filesystem whose source directory holds no file matching offset +1
(the only file has the wrong suffix). -/
def fsC6 : FS := ⟨["/src", "/t"], [⟨"/src", "a+2.jpg", ⟨5, false, "A"⟩⟩], [], 4⟩

/-- Arguments for the C6 run. -/
def argsC6 : CollectArgs := ⟨1, "/t", "", false, false, false⟩

/-- Witness for the C6 theorem at a concrete input. -/
theorem c6_no_matches_reports_zero_witness :
    (collect_images fsC6 "/src" argsC6 "x").outcome = CollectOutcome.done 0 ∧
    (collect_images fsC6 "/src" argsC6 "x").outcome.isRaised = false ∧
    (collect_images fsC6 "/src" argsC6 "x").written = [] ∧
    (collect_images fsC6 "/src" argsC6 "x").fs =
      (purgeOf fsC6 "/src" argsC6 "x").fs ∧
    (collect_images fsC6 "/src" argsC6 "x").prints =
      (purgeOf fsC6 "/src" argsC6 "x").prints ++
        ["No files found to be processed."] :=
  c6_no_matches_reports_zero fsC6 "/src" argsC6 "x" (by decide) (by decide)
    (by decide)

/-! ## Claim C1: numbering and chronological order of the collected files -/

/-- C1 (amended): for every run of collect_images that completes
successfully (the source directory exists, the purge was not cancelled,
at least one file matched, and no link/copy operation failed), if the
matched files have pairwise-distinct modification times then the run
creates exactly one entry per matched file, named "0.jpg" through
"(n-1).jpg" in the target directory, where position k holds the k-th
oldest matched file: the processed list is a permutation of the matched
files that is strictly increasing in modification time, and in the
default symlink mode entry k is a symbolic link to the path of the k-th
oldest matched file. -/
theorem c1_completed_run_names_and_order
    (fs : FS) (src : String) (a : CollectArgs) (ans : String)
    (h1 : fs.isdir src = true)
    (h2 : (purgeOf fs src a ans).cancelled = false)
    (h4 : matchedOf fs src a ans ≠ [])
    (h3 : (writeOf fs src a ans).err = none)
    (h5 : ((matchedOf fs src a ans).map (fun e => e.data.mtime)).Nodup) :
    (collect_images fs src a ans).outcome =
      CollectOutcome.done (matchedOf fs src a ans).length ∧
    List.Perm (sortByMtime (matchedOf fs src a ans)) (matchedOf fs src a ans) ∧
    List.Pairwise (fun u v => u.data.mtime < v.data.mtime)
      (sortByMtime (matchedOf fs src a ans)) ∧
    (collect_images fs src a ans).written.map (fun e => (e.dir, e.name)) =
      (List.enumFrom 0 (sortByMtime (matchedOf fs src a ans))).map
        (fun p => (targetDirOf src a, toString p.1 ++ ".jpg")) ∧
    (collect_images fs src a ans).written.length =
      (matchedOf fs src a ans).length ∧
    (a.copy = false →
      (collect_images fs src a ans).written =
        (List.enumFrom 0 (sortByMtime (matchedOf fs src a ans))).map
          (fun p => (⟨targetDirOf src a, toString p.1 ++ ".jpg",
            ⟨fs.clock, true, osPathJoin p.2.dir p.2.name⟩⟩ : Entry))) := by
  rw [collect_images_done_eq fs src a ans h1 h2 h4 h3]
  rw [writeOf_eq] at h3
  have hnames := writeFiles_names a.copy (targetDirOf src a)
    (sortByMtime (matchedOf fs src a ans)) (purgeOf fs src a ans).fs 0 h3
  refine ⟨rfl, sortByMtime_perm _, sortByMtime_pairwise_lt _ h5, ?_, ?_, ?_⟩
  · rw [writeOf_eq]
    exact hnames
  · rw [writeOf_eq]
    have hl := congrArg List.length hnames
    simp only [List.length_map, List.enumFrom_length] at hl
    rw [hl]
    exact (sortByMtime_perm _).length_eq
  · intro hcopy
    rw [hcopy] at h3
    have hsym := writeFiles_symlink (targetDirOf src a)
      (sortByMtime (matchedOf fs src a ans)) (purgeOf fs src a ans).fs 0 h3
    rw [purgeOf_fs_clock] at hsym
    rw [writeOf_eq, hcopy]
    exact hsym

/-- A filesystem with one matching source file and a non-empty target
directory, used for the C1 counterexample run. -/
def fsC1 : FS :=
  ⟨["/src", "/t"],
   [⟨"/t", "junk.txt", ⟨1, false, "J"⟩⟩, ⟨"/src", "a+1.jpg", ⟨5, false, "A"⟩⟩],
   [], 50⟩

/-- Arguments requesting a purge with interactive confirmation. -/
def argsC1 : CollectArgs := ⟨1, "/t", "", true, false, false⟩

/-- C1 counterexample: a run of collect with one matching file (distinct
modification times hold trivially) in which the user declines the purge
confirmation; the claim says the target directory afterwards contains the
new entry "0.jpg" for the matched file, but the run is cancelled and
creates nothing. -/
theorem c1_counterexample :
    (fsC1.globSuffix (scanDir "/src" "") (fmtSigned 1 ++ ".jpg")).length = 1 ∧
    ((fsC1.globSuffix (scanDir "/src" "") (fmtSigned 1 ++ ".jpg")).map
      (fun e => e.data.mtime)).Nodup ∧
    (collect_images fsC1 "/src" argsC1 "n").outcome =
      CollectOutcome.cancelled ∧
    (collect_images fsC1 "/src" argsC1 "n").written = [] ∧
    (collect_images fsC1 "/src" argsC1 "n").fs.hasEntry "/t" "0.jpg" =
      false := by decide

/-- A filesystem with two matching files of distinct modification times,
used for the C1 witness run. -/
def fsC1W : FS :=
  ⟨["/s", "/t"],
   [⟨"/s", "p+2.jpg", ⟨7, false, "P"⟩⟩, ⟨"/s", "q+2.jpg", ⟨4, false, "Q"⟩⟩],
   [], 11⟩

/-- Arguments for the C1 witness run. -/
def argsC1W : CollectArgs := ⟨2, "/t", "", false, false, false⟩

/-- Witness for the C1 theorem at a concrete input. -/
theorem c1_completed_run_names_and_order_witness :
    matchedOf fsC1W "/s" argsC1W "z" ≠ [] ∧
    (collect_images fsC1W "/s" argsC1W "z").outcome =
      CollectOutcome.done (matchedOf fsC1W "/s" argsC1W "z").length ∧
    (collect_images fsC1W "/s" argsC1W "z").written.map
        (fun e => (e.dir, e.name)) =
      (List.enumFrom 0 (sortByMtime (matchedOf fsC1W "/s" argsC1W "z"))).map
        (fun p => (targetDirOf "/s" argsC1W, toString p.1 ++ ".jpg")) :=
  ⟨by decide,
   (c1_completed_run_names_and_order fsC1W "/s" argsC1W "z" (by decide)
     (by decide) (by decide) (by decide) (by decide)).1,
   (c1_completed_run_names_and_order fsC1W "/s" argsC1W "z" (by decide)
     (by decide) (by decide) (by decide) (by decide)).2.2.2.1⟩

/-! ## Claim C4: symlink mode versus copy mode -/

/-- C4: in a completed run of collect_images, the default mode creates for
the k-th processed file a symbolic link whose link target is the original
source path (directory joined with name) of that file, while copy mode
(for regular source files outside the target directory) creates a regular
file duplicating the source file's bytes. -/
theorem c4_symlink_vs_copy_semantics
    (fs : FS) (src : String) (a : CollectArgs) (ans : String)
    (h1 : fs.isdir src = true)
    (h2 : (purgeOf fs src a ans).cancelled = false)
    (h4 : matchedOf fs src a ans ≠ [])
    (h3 : (writeOf fs src a ans).err = none) :
    (a.copy = false →
      (collect_images fs src a ans).written =
        (List.enumFrom 0 (sortByMtime (matchedOf fs src a ans))).map
          (fun p => (⟨targetDirOf src a, toString p.1 ++ ".jpg",
            ⟨fs.clock, true, osPathJoin p.2.dir p.2.name⟩⟩ : Entry))) ∧
    ((a.copy = true ∧
      (∀ f ∈ matchedOf fs src a ans, f.dir ≠ targetDirOf src a ∧
        (purgeOf fs src a ans).fs.getEntry f.dir f.name = some f.data ∧
        f.data.isSymlink = false)) →
      (collect_images fs src a ans).written =
        (List.enumFrom 0 (sortByMtime (matchedOf fs src a ans))).map
          (fun p => (⟨targetDirOf src a, toString p.1 ++ ".jpg",
            ⟨fs.clock, false, p.2.data.content⟩⟩ : Entry))) := by
  rw [collect_images_done_eq fs src a ans h1 h2 h4 h3]
  rw [writeOf_eq] at h3
  constructor
  · intro hcopy
    rw [hcopy] at h3
    have hsym := writeFiles_symlink (targetDirOf src a)
      (sortByMtime (matchedOf fs src a ans)) (purgeOf fs src a ans).fs 0 h3
    rw [purgeOf_fs_clock] at hsym
    rw [writeOf_eq, hcopy]
    exact hsym
  · rintro ⟨hcopy, hsrc⟩
    rw [hcopy] at h3
    have hsrc2 : ∀ f ∈ sortByMtime (matchedOf fs src a ans),
        f.dir ≠ targetDirOf src a ∧
        (purgeOf fs src a ans).fs.getEntry f.dir f.name = some f.data ∧
        f.data.isSymlink = false := by
      intro f hf
      exact hsrc f ((sortByMtime_perm _).mem_iff.mp hf)
    have hcp := writeFiles_copy (targetDirOf src a)
      (sortByMtime (matchedOf fs src a ans)) (purgeOf fs src a ans).fs 0 h3 hsrc2
    rw [purgeOf_fs_clock] at hcp
    rw [writeOf_eq, hcopy]
    exact hcp

/-- A filesystem with two regular matching files, used for the C4 witness
runs. -/
def fsC4 : FS :=
  ⟨["/src", "/t"],
   [⟨"/src", "a+1.jpg", ⟨5, false, "AAA"⟩⟩,
    ⟨"/src", "b+1.jpg", ⟨3, false, "BBB"⟩⟩],
   [], 77⟩

/-- Arguments selecting copy mode. -/
def argsC4 : CollectArgs := ⟨1, "/t", "", false, false, true⟩

/-- Witness for the C4 theorem at a concrete input: the copy-mode run
duplicates the bytes of the two source files in chronological order. -/
theorem c4_symlink_vs_copy_semantics_witness :
    (collect_images fsC4 "/src" argsC4 "x").written =
      [⟨"/t", "0.jpg", ⟨77, false, "BBB"⟩⟩,
       ⟨"/t", "1.jpg", ⟨77, false, "AAA"⟩⟩] := by
  have h := (c4_symlink_vs_copy_semantics fsC4 "/src" argsC4 "x" (by decide)
    (by decide) (by decide) (by decide)).2 ⟨rfl, by decide⟩
  rw [h]
  decide

/-! ## Claim C5: the file-matching rule of the glob -/

/-- C5 (amended): in a run of collect_images without purge whose source
directory exists, a file is matched if and only if it lies directly in
the scanned directory (the join of the source directory and the
subdirectory argument), its name does not begin with a dot (glob treats
such names as hidden and never matches them), and its name ends with the
offset rendered as a signed integer with an explicit sign immediately
before the ".jpg" extension; the matched list of the run is exactly this
selection. -/
theorem c5_matching_rule
    (fs : FS) (src : String) (a : CollectArgs) (ans : String)
    (h1 : fs.isdir src = true) (hp : a.purge = false) :
    (collect_images fs src a ans).matched = matchedOf fs src a ans ∧
    (∀ e : Entry, e ∈ matchedOf fs src a ans ↔
      (e ∈ fs.entries ∧ e.dir = scanDir src a.subdir ∧
        isHidden e.name = false ∧
        pyEndsWith e.name (fmtSigned a.offset ++ ".jpg") = true)) := by
  have h2 : (purgeOf fs src a ans).cancelled = false := by
    rw [purgeOf_no_purge fs src a ans hp]
  constructor
  · by_cases h3 : matchedOf fs src a ans = []
    · rw [collect_images_noFiles_eq fs src a ans h1 h2 h3]
    · cases herr : (writeOf fs src a ans).err with
      | none => rw [collect_images_done_eq fs src a ans h1 h2 h3 herr]
      | some m => rw [collect_images_raised_eq fs src a ans m h1 h2 h3 herr]
  · intro e
    have hglob : matchedOf fs src a ans =
        fs.entries.filter (fun e2 => e2.dir == scanDir src a.subdir &&
          !(isHidden e2.name) &&
          pyEndsWith e2.name (fmtSigned a.offset ++ ".jpg")) := by
      rw [matchedOf, purgeOf_no_purge fs src a ans hp]
      show (preFS fs src a).globSuffix _ _ = _
      rw [FS.globSuffix, preFS_entries]
    rw [hglob, List.mem_filter]
    constructor
    · rintro ⟨hmem, hcond⟩
      have hc := (Bool.and_eq_true _ _).mp hcond
      have hc1 := (Bool.and_eq_true _ _).mp hc.1
      refine ⟨hmem, eq_of_beq hc1.1, ?_, hc.2⟩
      have hh := hc1.2
      rw [Bool.not_eq_true'] at hh
      exact hh
    · rintro ⟨hmem, hdir, hhid, hend⟩
      refine ⟨hmem, ?_⟩
      have hb : (e.dir == scanDir src a.subdir) = true := beq_iff_eq.mpr hdir
      rw [hb, hhid, hend]
      rfl

/-- A filesystem whose source directory holds a hidden file whose name
ends with the offset suffix. -/
def fsC5 : FS := ⟨["/src", "/t"], [⟨"/src", ".b+1.jpg", ⟨1, false, "H"⟩⟩], [], 3⟩

/-- Arguments for the C5 counterexample run. -/
def argsC5 : CollectArgs := ⟨1, "/t", "", false, false, false⟩

/-- C5 counterexample: the hidden file ".b+1.jpg" lies in the scanned
directory and its name ends with "+1.jpg", so by the claim it must be
selected for offset 1; the glob never matches names beginning with a dot,
so the run matches nothing and creates nothing. -/
theorem c5_counterexample :
    pyEndsWith ".b+1.jpg" (fmtSigned 1 ++ ".jpg") = true ∧
    (⟨"/src", ".b+1.jpg", ⟨1, false, "H"⟩⟩ : Entry) ∈ fsC5.entries ∧
    (⟨"/src", ".b+1.jpg", ⟨1, false, "H"⟩⟩ : Entry).dir = scanDir "/src" "" ∧
    (⟨"/src", ".b+1.jpg", ⟨1, false, "H"⟩⟩ : Entry) ∉
      matchedOf fsC5 "/src" argsC5 "x" ∧
    (collect_images fsC5 "/src" argsC5 "x").written = [] := by decide

/-- A filesystem with one matching file, one file with the wrong suffix
and one file in another directory, for the C5 witness. -/
def fsC5W : FS :=
  ⟨["/src", "/t"],
   [⟨"/src", "a+1.jpg", ⟨5, false, "A"⟩⟩,
    ⟨"/src", "a+2.jpg", ⟨6, false, "B"⟩⟩,
    ⟨"/elsewhere", "c+1.jpg", ⟨7, false, "C"⟩⟩],
   [], 3⟩

/-- Witness for the C5 theorem at a concrete input. -/
theorem c5_matching_rule_witness :
    (collect_images fsC5W "/src" argsC5 "x").matched =
      matchedOf fsC5W "/src" argsC5 "x" ∧
    ((⟨"/src", "a+1.jpg", ⟨5, false, "A"⟩⟩ : Entry) ∈
      matchedOf fsC5W "/src" argsC5 "x" ↔
      ((⟨"/src", "a+1.jpg", ⟨5, false, "A"⟩⟩ : Entry) ∈ fsC5W.entries ∧
        (⟨"/src", "a+1.jpg", ⟨5, false, "A"⟩⟩ : Entry).dir =
          scanDir "/src" argsC5.subdir ∧
        isHidden (⟨"/src", "a+1.jpg", ⟨5, false, "A"⟩⟩ : Entry).name = false ∧
        pyEndsWith (⟨"/src", "a+1.jpg", ⟨5, false, "A"⟩⟩ : Entry).name
          (fmtSigned argsC5.offset ++ ".jpg") = true)) :=
  ⟨(c5_matching_rule fsC5W "/src" argsC5 "x" (by decide) rfl).1,
   (c5_matching_rule fsC5W "/src" argsC5 "x" (by decide) rfl).2
     ⟨"/src", "a+1.jpg", ⟨5, false, "A"⟩⟩⟩

/-! ## Claim C7: no rollback after a completed purge -/

/-- C7: for every run of collect_images in which the purge deletion
completes (purge requested, and either silent mode or an accepted
confirmation, with a non-empty target directory) and the link/copy phase
then raises an error, the purge's deletions persist: the run ends with
the raised error, the purged list is the non-empty glob of the target
directory, and any purged entry still present in the final filesystem is
one freshly created by the link/copy loop - nothing restores the deleted
files. -/
theorem c7_purge_not_rolled_back
    (fs : FS) (src : String) (a : CollectArgs) (ans m : String)
    (h1 : fs.isdir src = true)
    (hp : a.purge = true)
    (hok : a.silent = true ∨ pyLower ans = "y")
    (hne : (preFS fs src a).globStar (targetDirOf src a) ≠ [])
    (hm : (writeOf fs src a ans).err = some m) :
    (collect_images fs src a ans).outcome = CollectOutcome.raised m ∧
    (collect_images fs src a ans).purged =
      (preFS fs src a).globStar (targetDirOf src a) ∧
    (collect_images fs src a ans).purged ≠ [] ∧
    (∀ e ∈ (collect_images fs src a ans).purged,
      e ∈ (collect_images fs src a ans).fs.entries →
        e ∈ (collect_images fs src a ans).written) := by
  have hpg : purgeOf fs src a ans =
      ⟨(preFS fs src a).removeEntries
          ((preFS fs src a).globStar (targetDirOf src a)), false,
        (if a.silent = false then purgePrompts (targetDirOf src a) else []),
        (preFS fs src a).globStar (targetDirOf src a)⟩ := by
    rw [purgeOf, hp]
    exact purgePhase_proceed _ _ _ _ hne hok
  have h2 : (purgeOf fs src a ans).cancelled = false := by rw [hpg]
  have h4 : matchedOf fs src a ans ≠ [] := by
    intro h0
    rw [writeOf_eq, h0] at hm
    simp [sortByMtime, writeFiles_nil] at hm
  rw [collect_images_raised_eq fs src a ans m h1 h2 h4 hm]
  refine ⟨rfl, ?_, ?_, ?_⟩
  · show (purgeOf fs src a ans).purged = _
    rw [hpg]
  · show (purgeOf fs src a ans).purged ≠ []
    rw [hpg]
    exact hne
  · intro e he hf
    have he2 : e ∈ (purgeOf fs src a ans).purged := he
    have hf2 : e ∈ (writeOf fs src a ans).fs.entries := hf
    rw [writeOf_eq] at hf2
    have hsub := writeFiles_entries_sub a.copy (targetDirOf src a)
      (sortByMtime (matchedOf fs src a ans)) (purgeOf fs src a ans).fs 0 e hf2
    rcases hsub with hw | hold
    · show e ∈ (writeOf fs src a ans).written
      rw [writeOf_eq]
      exact hw
    · exfalso
      rw [hpg] at hold he2
      obtain ⟨_, hall⟩ := removeEntries_mem
        ((preFS fs src a).globStar (targetDirOf src a)) (preFS fs src a) e hold
      exact hall e he2 ⟨rfl, rfl⟩

/-- A filesystem in which the write of "0.jpg" into the target directory
fails (environmental failure), the target directory is non-empty and one
source file matches. -/
def fsC7 : FS :=
  ⟨["/src", "/t"],
   [⟨"/t", "old.jpg", ⟨1, false, "O"⟩⟩, ⟨"/src", "a+1.jpg", ⟨5, false, "A"⟩⟩],
   [("/t", "0.jpg")], 9⟩

/-- Arguments requesting a silent purge. -/
def argsC7 : CollectArgs := ⟨1, "/t", "", true, true, false⟩

/-- Witness for the C7 theorem at a concrete input: the purge deletes
old.jpg, the symlink phase then fails, and old.jpg stays deleted. -/
theorem c7_purge_not_rolled_back_witness :
    (collect_images fsC7 "/src" argsC7 "x").outcome =
      CollectOutcome.raised "FilesystemError" ∧
    (collect_images fsC7 "/src" argsC7 "x").purged ≠ [] ∧
    (collect_images fsC7 "/src" argsC7 "x").fs.hasEntry "/t" "old.jpg" =
      false :=
  ⟨(c7_purge_not_rolled_back fsC7 "/src" argsC7 "x" "FilesystemError"
      (by decide) rfl (Or.inl rfl) (by decide) (by decide)).1,
   (c7_purge_not_rolled_back fsC7 "/src" argsC7 "x" "FilesystemError"
      (by decide) rfl (Or.inl rfl) (by decide) (by decide)).2.2.1,
   by decide⟩

/-! ## Claim C8: the top-level dispatch of main -/

/-- How one action invocation ends, as seen by the dispatch of main:
either the action function returned, or an exception propagated out of
it with the given message. -/
inductive ActionResult where
  | completed
  | raised (msg : String)
deriving DecidableEq

/-- The try/except of main (source lines 162-166): run the action; a bare
except catches any propagating exception and logs the single line
"Operation failed: {exception}"; nothing is re-raised, so the dispatch
itself terminates normally (second component: the exception it would
propagate, always none). -/
def mainDispatch : ActionResult → List String × Option String
  | .completed => ([], none)
  | .raised m => (["Operation failed: " ++ m], none)

/-- The collect-images action as seen by the dispatch: the run's outcome,
collapsed to whether an exception propagated. -/
def collectAction (fs : FS) (src : String) (a : CollectArgs)
    (ans : String) : ActionResult :=
  match (collect_images fs src a ans).outcome with
  | .raised m => ActionResult.raised m
  | _ => ActionResult.completed

/-- C8: for every collect run that raises an uncaught exception, the
top-level dispatch logs exactly one human-readable failure message and
terminates the action without crashing (no exception propagates out of
main); the failure is reported rather than crashing the process. -/
theorem c8_dispatch_logs_failure_once
    (fs : FS) (src : String) (a : CollectArgs) (ans m : String)
    (h : (collect_images fs src a ans).outcome = CollectOutcome.raised m) :
    mainDispatch (collectAction fs src a ans) =
      (["Operation failed: " ++ m], none) ∧
    (mainDispatch (collectAction fs src a ans)).1.length = 1 ∧
    (mainDispatch (collectAction fs src a ans)).2 = none := by
  have hca : collectAction fs src a ans = ActionResult.raised m := by
    rw [collectAction, h]
  rw [hca]
  exact ⟨rfl, rfl, rfl⟩

/-- A filesystem on which the collect run raises (the write of "0.jpg"
fails). -/
def fsC8 : FS :=
  ⟨["/src", "/t"], [⟨"/src", "a+1.jpg", ⟨5, false, "A"⟩⟩],
   [("/t", "0.jpg")], 9⟩

/-- Arguments for the C8 witness run. -/
def argsC8 : CollectArgs := ⟨1, "/t", "", false, false, false⟩

/-- Witness for the C8 theorem at a concrete input. -/
theorem c8_dispatch_logs_failure_once_witness :
    mainDispatch (collectAction fsC8 "/src" argsC8 "x") =
      (["Operation failed: " ++ "FilesystemError"], none) ∧
    (mainDispatch (collectAction fsC8 "/src" argsC8 "x")).1.length = 1 ∧
    (mainDispatch (collectAction fsC8 "/src" argsC8 "x")).2 = none :=
  c8_dispatch_logs_failure_once fsC8 "/src" argsC8 "x" "FilesystemError"
    (by decide)

/-! ## Claim C9: resolution of the target path -/

/-- C9: in every run of collect_images the effective target directory is
the given target when it is absolute and the join of the source directory
and the given target otherwise (resolution is relative to the source
directory, not the working directory); every entry the run creates lives
in that directory, and when the source directory exists that directory
exists in the final filesystem (it is created if absent). -/
theorem c9_relative_target_resolved_against_source
    (fs : FS) (src : String) (a : CollectArgs) (ans : String) :
    ((collect_images fs src a ans).targetDir =
      (if pyIsAbs a.target = true then a.target else osPathJoin src a.target)) ∧
    (pyIsAbs a.target = false →
      (collect_images fs src a ans).targetDir = osPathJoin src a.target) ∧
    (pyIsAbs a.target = true →
      (collect_images fs src a ans).targetDir = a.target) ∧
    (∀ e ∈ (collect_images fs src a ans).written,
      e.dir = (collect_images fs src a ans).targetDir) ∧
    (fs.isdir src = true →
      (collect_images fs src a ans).fs.isdir
        ((collect_images fs src a ans).targetDir) = true) := by
  have htd := collect_targetDir fs src a ans
  refine ⟨?_, ?_, ?_, ?_, ?_⟩
  · rw [htd]
    rfl
  · intro habs
    rw [htd]
    simp [targetDirOf, habs]
  · intro habs
    rw [htd]
    simp [targetDirOf, habs]
  · intro e he
    have hw := collect_written_sub fs src a ans e he
    rw [writeOf_eq] at hw
    have hshape := (writeFiles_written_shape a.copy (targetDirOf src a)
      (sortByMtime (matchedOf fs src a ans)) (purgeOf fs src a ans).fs 0 e hw).1
    rw [htd]
    exact hshape
  · intro h1
    rw [htd]
    have hd := collect_fs_dirs fs src a ans h1
    rw [isdir_of_dirs_eq _ (preFS fs src a) _ hd]
    exact preFS_isdir_target fs src a

/-- A filesystem for the C9 witness, whose target directory does not
exist beforehand. -/
def fsC9 : FS := ⟨["/base/src"], [⟨"/base/src", "a+1.jpg", ⟨5, false, "A"⟩⟩], [], 2⟩

/-- Arguments with a relative target path. -/
def argsC9 : CollectArgs := ⟨1, "frames", "", false, false, false⟩

/-- Witness for the C9 theorem at a concrete input: the relative target
"frames" resolves to /base/src/frames, which is created. -/
theorem c9_relative_target_resolved_against_source_witness :
    (collect_images fsC9 "/base/src" argsC9 "x").targetDir =
      osPathJoin "/base/src" "frames" ∧
    (collect_images fsC9 "/base/src" argsC9 "x").fs.isdir
      ((collect_images fsC9 "/base/src" argsC9 "x").targetDir) = true :=
  ⟨(c9_relative_target_resolved_against_source fsC9 "/base/src" argsC9
      "x").2.1 (by decide),
   (c9_relative_target_resolved_against_source fsC9 "/base/src" argsC9
      "x").2.2.2.2 (by decide)⟩

/-! ## Claim C10: creation of the settings module -/

/-- The state of the settings module next to the script: whether
settings.py exists, its content, and the content of sample_settings.py. -/
structure ScriptState where
  settingsExists : Bool
  settingsContent : String
  sampleContent : String
deriving DecidableEq

/-- init (source lines 18-26): when settings.py does not exist, copy
sample_settings.py to settings.py and print a notice; otherwise do
nothing. Returns the new state and the printed lines. -/
def init (s : ScriptState) : ScriptState × List String :=
  if s.settingsExists = false then
    (⟨true, s.sampleContent, s.sampleContent⟩,
      ["Created settings.py module from sample."])
  else (s, [])

/-- The effect of the show-time action on the settings module: init is
its first statement (source line 49); the rest of the action only reads
configuration and prints. -/
def show_time_settings (s : ScriptState) : ScriptState := (init s).1

/-- The effect of the run-commands action on the settings module: init is
its first statement (source line 32); the rest of the action prints or
hands the configured commands to os.system. -/
def run_commands_settings (s : ScriptState) : ScriptState := (init s).1

/-- The effect of the collect-images action on the settings module:
collect_images never calls init (source lines 76-119); it only imports
the settings module (a read). -/
def collect_images_settings (s : ScriptState) : ScriptState := s

/-- C10: show-time and run-commands first create settings.py by copying
sample_settings.py whenever it does not exist (a filesystem write), and
leave it unchanged when it exists; collect-images never performs this
step - its settings-module effect is the identity, and every entry a
collect run creates is named "k.jpg" for some k, never "settings.py". -/
theorem c10_settings_bootstrap
    (s : ScriptState) (fs : FS) (src : String) (a : CollectArgs)
    (ans : String) :
    (s.settingsExists = false →
      show_time_settings s = ⟨true, s.sampleContent, s.sampleContent⟩ ∧
      run_commands_settings s = ⟨true, s.sampleContent, s.sampleContent⟩ ∧
      (init s).2 = ["Created settings.py module from sample."]) ∧
    (s.settingsExists = true →
      show_time_settings s = s ∧ run_commands_settings s = s ∧
      (init s).2 = []) ∧
    collect_images_settings s = s ∧
    (∀ e ∈ (collect_images fs src a ans).written,
      e.name ≠ "settings.py") := by
  refine ⟨?_, ?_, rfl, ?_⟩
  · intro hf
    rw [show_time_settings, run_commands_settings, init, if_pos hf]
    exact ⟨rfl, rfl, rfl⟩
  · intro ht
    have hcond : ¬(s.settingsExists = false) := by rw [ht]; simp
    rw [show_time_settings, run_commands_settings, init, if_neg hcond]
    exact ⟨rfl, rfl, rfl⟩
  · intro e he
    have hw := collect_written_sub fs src a ans e he
    rw [writeOf_eq] at hw
    obtain ⟨k, hk⟩ := (writeFiles_written_shape a.copy (targetDirOf src a)
      (sortByMtime (matchedOf fs src a ans)) (purgeOf fs src a ans).fs 0
      e hw).2
    rw [hk]
    exact jpg_name_ne_settings k

/-- Witness for the C10 theorem at concrete inputs: a missing settings
module is created from the sample by show-time, an existing one is kept,
and collect-images leaves the module state untouched. -/
theorem c10_settings_bootstrap_witness :
    show_time_settings ⟨false, "", "SAMPLE"⟩ = ⟨true, "SAMPLE", "SAMPLE"⟩ ∧
    show_time_settings ⟨true, "CURRENT", "SAMPLE"⟩ =
      ⟨true, "CURRENT", "SAMPLE"⟩ ∧
    collect_images_settings ⟨true, "CURRENT", "SAMPLE"⟩ =
      ⟨true, "CURRENT", "SAMPLE"⟩ :=
  ⟨((c10_settings_bootstrap ⟨false, "", "SAMPLE"⟩ ⟨[], [], [], 0⟩ "/s"
      ⟨0, "/t", "", false, false, false⟩ "x").1 rfl).1,
   ((c10_settings_bootstrap ⟨true, "CURRENT", "SAMPLE"⟩ ⟨[], [], [], 0⟩ "/s"
      ⟨0, "/t", "", false, false, false⟩ "x").2.1 rfl).1,
   (c10_settings_bootstrap ⟨true, "CURRENT", "SAMPLE"⟩ ⟨[], [], [], 0⟩ "/s"
      ⟨0, "/t", "", false, false, false⟩ "x").2.2.1⟩

end Sunset
